import Mathlib

/-!
Verification of the AS-graph construction core of `src/pipeline.py`
(`analyze_routes_to_graph` and the size-limit step of the `__main__`
pipeline).  Python strings are modelled as lists of characters, Python
sets as `Finset`, and the fallible analysis entry point as an `Option`.
-/

/-- A Python string, modelled as its list of Unicode characters. -/
abbrev PyStr := List Char

/-- A raw AS-path token as it arrives from the parser: Python code at
line 118 applies `str(item)`, so an item may be an integer or a string. -/
inductive Token where
  | int (n : Int) : Token
  | str (s : PyStr) : Token
deriving DecidableEq, Repr

/-- Python `str` applied to an integer: decimal digits, with a leading
minus sign for negative values. -/
def pyStrInt (n : Int) : PyStr :=
  if n < 0 then '-' :: Nat.toDigits 10 n.natAbs else Nat.toDigits 10 n.toNat

/-- `str(item)` at line 118 of `src/pipeline.py`. -/
def pyStr : Token → PyStr
  | .int n => pyStrInt n
  | .str s => s

/-- Model of which characters Python `str.isdigit` accepts: every
character whose Unicode `Numeric_Type` is `Decimal` or `Digit`.  The
model covers the ASCII digits, the common decimal-digit blocks
(Arabic-Indic, Extended Arabic-Indic, Devanagari, fullwidth), and the
superscript digits 1, 2, 3 (the CPython documentation's own example of
digits that are not decimals).  Every character accepted here is
accepted by Python's `str.isdigit`. -/
def pyIsDigitChar (c : Char) : Bool :=
  ('0' ≤ c && c ≤ '9') ||
  ('٠' ≤ c && c ≤ '٩') ||
  ('۰' ≤ c && c ≤ '۹') ||
  ('०' ≤ c && c ≤ '९') ||
  ('０' ≤ c && c ≤ '９') ||
  c = '²' || c = '³' || c = '¹'

/-- `asn_str.isdigit()` at line 119 of `src/pipeline.py`: true exactly
when the string is nonempty and every character is a digit. -/
def pyIsDigit (s : PyStr) : Bool :=
  !s.isEmpty && s.all pyIsDigitChar

/-- The spec's `^[0-9]+$` pattern (stated, not taken from the source):
a nonempty string of ASCII decimal digits.  Used to compare the spec's
wording against the source's `str.isdigit` filter. -/
def matchesAsciiDigits (s : PyStr) : Bool :=
  !s.isEmpty && s.all (fun c => '0' ≤ c && c ≤ '9')

/-- The normalization loop at lines 114-123 of `src/pipeline.py`:
walk the raw path keeping a `last_asn` register (initially `None`);
a token whose `str` form passes `isdigit` and differs from `last_asn`
is appended and becomes the new `last_asn`; every other token is
dropped without touching `last_asn`. -/
def cleanLoop (path : List Token) (last : Option PyStr) : List PyStr :=
  match path with
  | [] => []
  | item :: rest =>
    if pyIsDigit (pyStr item) then
      if last = some (pyStr item) then cleanLoop rest last
      else pyStr item :: cleanLoop rest (some (pyStr item))
    else cleanLoop rest last

/-- `cleaned_path` as produced from a raw `as_path` (lines 114-123). -/
def cleanedPath (as_path : List Token) : List PyStr :=
  cleanLoop as_path none

/-- Lexicographic code-point comparison on Python strings (`<`). -/
def strLt : PyStr → PyStr → Bool
  | [], [] => false
  | [], _ :: _ => true
  | _ :: _, [] => false
  | a :: as, b :: bs => if a < b then true else if b < a then false else strLt as bs

/-- `tuple(sorted((source, target)))` at line 137: a two-element sort,
which swaps the pair exactly when the second string compares below
the first. -/
def sortPair (s t : PyStr) : PyStr × PyStr :=
  if strLt t s then (t, s) else (s, t)

/-- The accumulated graph state: `nodes` and `links` are Python `set`s
(lines 103-104), modelled as finite sets since Python set iteration
order is unspecified. -/
structure Graph where
  nodes : Finset PyStr
  links : Finset (PyStr × PyStr)

instance : DecidableEq Graph := fun g h =>
  decidable_of_iff (g.nodes = h.nodes ∧ g.links = h.links)
    (by cases g; cases h; simp)

/-- One route record as consumed by `analyze_routes_to_graph`: only its
`as_path` field is read (the `prefix` is opaque to the analysis); a
missing or `None` path behaves like the empty list under the
`if not as_path` test at line 109. -/
structure RouteRecord where
  as_path : List Token
deriving DecidableEq, Repr

/-- The edge-extraction loop at lines 128-137: for each adjacent pair
of the cleaned path, add both endpoints to `nodes` and the sorted pair
to `links`. -/
def addPath : List PyStr → Graph → Graph
  | a :: b :: rest, g =>
      addPath (b :: rest)
        { nodes := insert b (insert a g.nodes),
          links := insert (sortPair a b) g.links }
  | _, g => g

/-- Processing of one record inside the main loop (lines 107-137):
skip records with a falsy `as_path` (line 109), normalize, skip cleaned
paths shorter than two elements (lines 125-126), then extract edges. -/
def analyzeStep (g : Graph) (r : RouteRecord) : Graph :=
  if r.as_path = [] then g
  else if (cleanedPath r.as_path).length < 2 then g
  else addPath (cleanedPath r.as_path) g

/-- The node/link sets accumulated over all records (lines 103-141). -/
def analyzeSets (records : List RouteRecord) : Graph :=
  records.foldl analyzeStep ⟨∅, ∅⟩

/-- `analyze_routes_to_graph` (lines 96-151): an empty (falsy) record
list returns `None` (lines 98-100); otherwise the accumulated graph is
returned.  The exported D3 lists (lines 147-150) enumerate the two sets
in unspecified order, so the result is modelled by the sets themselves. -/
def analyze_routes_to_graph (records : List RouteRecord) : Option Graph :=
  if records = [] then none else some (analyzeSets records)

/-- `MAX_NODES` at line 217 of `src/pipeline.py`. -/
def MAX_NODES : Nat := 5000

/-- `MAX_LINKS` at line 218 of `src/pipeline.py`. -/
def MAX_LINKS : Nat := 10000

/-- The size-limit step at lines 216-223 of the `__main__` pipeline:
when the node or link count exceeds its ceiling a warning is printed
(modelled by the boolean flag) and the graph data proceeds unchanged
to `save_graph_data`; no truncation, filtering, or error occurs. -/
def sizeLimitCheck (graph_data : Graph) : Graph × Bool :=
  if graph_data.nodes.card > MAX_NODES ∨ graph_data.links.card > MAX_LINKS then
    (graph_data, true)
  else
    (graph_data, false)

-- Sanity checks against the spec's concrete scenarios.
example : cleanedPath [] = [] := by decide
example : cleanedPath [.str ['7'], .str ['7'], .str ['7']] = [['7']] := by decide
example : cleanedPath [.str ['7'], .str ['A','S','_','S','E','T'], .str ['7']] = [['7']] := by
  decide
example : cleanedPath [.int 701, .int 701, .int 3356] = [['7','0','1'], ['3','3','5','6']] := by
  decide
example :
    analyzeSets [⟨[.str ['1'], .str ['2']]⟩] =
      ⟨{['1'], ['2']}, {(['1'], ['2'])}⟩ := by decide
example : analyze_routes_to_graph [] = none := by decide

/-! ### Normalizer lemmas -/

/-- Every element the normalization loop emits passed the `isdigit`
test at line 119. -/
theorem mem_cleanLoop_isDigit {x : PyStr} :
    ∀ (path : List Token) (last : Option PyStr),
      x ∈ cleanLoop path last → pyIsDigit x = true := by
  intro path
  induction path with
  | nil => intro last h; simp [cleanLoop] at h
  | cons item rest ih =>
    intro last h
    by_cases hd : pyIsDigit (pyStr item)
    · by_cases hl : last = some (pyStr item)
      · rw [cleanLoop, if_pos hd, if_pos hl] at h
        exact ih last h
      · rw [cleanLoop, if_pos hd, if_neg hl] at h
        rcases List.mem_cons.mp h with h1 | h2
        · rw [h1]; exact hd
        · exact ih _ h2
    · rw [cleanLoop, if_neg hd] at h
      exact ih last h

/-- When the `last_asn` register holds `l`, the first element the loop
emits afterwards differs from `l` (line 120's inequality test). -/
theorem cleanLoop_head_ne :
    ∀ (path : List Token) (l : PyStr) (x : PyStr),
      (cleanLoop path (some l)).head? = some x → x ≠ l := by
  intro path
  induction path with
  | nil => intro l x h; simp [cleanLoop] at h
  | cons item rest ih =>
    intro l x h
    by_cases hd : pyIsDigit (pyStr item)
    · by_cases hl : (some l : Option PyStr) = some (pyStr item)
      · rw [cleanLoop, if_pos hd, if_pos hl] at h
        exact ih l x h
      · rw [cleanLoop, if_pos hd, if_neg hl] at h
        simp only [List.head?_cons, Option.some.injEq] at h
        intro hxl
        exact hl (by rw [hxl] at h; rw [h])
    · rw [cleanLoop, if_neg hd] at h
      exact ih l x h

/-- The normalization loop never emits two adjacent equal strings. -/
theorem cleanLoop_chain' :
    ∀ (path : List Token) (last : Option PyStr),
      List.Chain' (fun a b => a ≠ b) (cleanLoop path last) := by
  intro path
  induction path with
  | nil => intro last; simp [cleanLoop]
  | cons item rest ih =>
    intro last
    by_cases hd : pyIsDigit (pyStr item)
    · by_cases hl : last = some (pyStr item)
      · rw [cleanLoop, if_pos hd, if_pos hl]
        exact ih last
      · rw [cleanLoop, if_pos hd, if_neg hl]
        rw [List.chain'_cons']
        refine ⟨?_, ih _⟩
        intro y hy
        exact (cleanLoop_head_ne rest (pyStr item) y hy).symm
    · rw [cleanLoop, if_neg hd]
      exact ih last

/-! ### C1-C5 -/

/-- C1, counterexample: building the graph from an empty input record
sequence does not return the empty Graph; lines 98-100 return `None`. -/
theorem build_empty_not_empty_graph :
    analyze_routes_to_graph [] ≠ some ⟨∅, ∅⟩ := by decide

/-- C1, amended: building the graph from an empty input record sequence
returns `None` — the caller-visible no-usable-records indicator, which
is not a Graph value — and does not raise an error. -/
theorem build_empty_returns_none : analyze_routes_to_graph [] = none := by
  decide

/-- C2, counterexample: the superscript-two character is accepted by
Python's `str.isdigit` (line 119), so the token `"²"` survives
normalization, yet `"²"` does not match `^[0-9]+$`. -/
theorem cleanedPath_element_not_ascii :
    cleanedPath [Token.str ['²']] = [['²']] ∧
      matchesAsciiDigits ['²'] = false := by decide

/-- C2, amended: every element of the cleaned path is a nonempty string
all of whose characters Python's `str.isdigit` classifies as digits;
this includes the ASCII digits `0-9` but also other Unicode digit
characters, so `^[0-9]+$` is guaranteed only when the input tokens are
integers or ASCII strings. -/
theorem cleanedPath_elements_are_digit_strings (p : List Token) (x : PyStr)
    (hx : x ∈ cleanedPath p) : pyIsDigit x = true :=
  mem_cleanLoop_isDigit p none hx

theorem cleanedPath_elements_are_digit_strings_witness :
    ['7'] ∈ cleanedPath [Token.str ['7']] ∧ pyIsDigit ['7'] = true :=
  ⟨by decide, cleanedPath_elements_are_digit_strings [Token.str ['7']] ['7'] (by decide)⟩

/-- C3: for every input token sequence, the cleaned path produced by the
normalization loop contains no two adjacent textually-equal elements. -/
theorem cleanedPath_no_adjacent_duplicates (p : List Token) :
    List.Chain' (fun a b => a ≠ b) (cleanedPath p) :=
  cleanLoop_chain' p none

/-- C4: a discarded non-numeric token does not reset the `last_asn`
register, so the two `"7"` tokens collapse across the discarded
`"AS_SET"` token. -/
theorem discarded_token_keeps_adjacency :
    cleanedPath [Token.str ['7'], Token.str ['A','S','_','S','E','T'], Token.str ['7']] =
      [['7']] := by decide

/-- C5: the sorted-tuple canonicalization at line 137 makes the link set
orientation-independent, and set insertion deduplicates repeated
observations: the two single-record inputs produce identical link sets,
and the three-record input yields exactly one link and two nodes. -/
theorem links_canonical_and_deduplicated :
    (analyzeSets [⟨[Token.str ['1'], Token.str ['2']]⟩]).links =
        (analyzeSets [⟨[Token.str ['2'], Token.str ['1']]⟩]).links ∧
      (analyzeSets [⟨[Token.str ['1'], Token.str ['2']]⟩,
          ⟨[Token.str ['2'], Token.str ['1']]⟩,
          ⟨[Token.str ['1'], Token.str ['2']]⟩]).links = {(['1'], ['2'])} ∧
      (analyzeSets [⟨[Token.str ['1'], Token.str ['2']]⟩,
          ⟨[Token.str ['2'], Token.str ['1']]⟩,
          ⟨[Token.str ['1'], Token.str ['2']]⟩]).nodes = {['1'], ['2']} := by
  refine ⟨by decide, by decide, by decide⟩

/-! ### Graph-builder decomposition lemmas -/

/-- Two graphs with the same node and link sets are equal. -/
theorem Graph.ext2 {g h : Graph} (hn : g.nodes = h.nodes)
    (hl : g.links = h.links) : g = h := by
  cases g; cases h; cases hn; cases hl; rfl

/-- Edge extraction only unions fresh contributions into the
accumulated state: its effect on any starting graph is the union with
its effect on the empty graph. -/
theorem addPath_union :
    ∀ (c : List PyStr) (g : Graph),
      addPath c g =
        ⟨g.nodes ∪ (addPath c ⟨∅, ∅⟩).nodes,
          g.links ∪ (addPath c ⟨∅, ∅⟩).links⟩ := by
  intro c
  induction c with
  | nil =>
    intro g
    refine Graph.ext2 ?_ ?_ <;> simp [addPath]
  | cons a tail ih =>
    intro g
    cases tail with
    | nil =>
      refine Graph.ext2 ?_ ?_ <;> simp [addPath]
    | cons b rest =>
      rw [show addPath (a :: b :: rest) g =
            addPath (b :: rest)
              ⟨insert b (insert a g.nodes), insert (sortPair a b) g.links⟩ from rfl,
          show addPath (a :: b :: rest) (⟨∅, ∅⟩ : Graph) =
            addPath (b :: rest)
              ⟨insert b (insert a ∅), insert (sortPair a b) ∅⟩ from rfl,
          ih ⟨insert b (insert a g.nodes), insert (sortPair a b) g.links⟩,
          ih ⟨insert b (insert a ∅), insert (sortPair a b) ∅⟩]
      refine Graph.ext2 ?_ ?_ <;> ext x <;> simp <;> tauto

/-- Record processing likewise only unions a per-record contribution
into the accumulated state. -/
theorem analyzeStep_union (g : Graph) (r : RouteRecord) :
    analyzeStep g r =
      ⟨g.nodes ∪ (analyzeStep ⟨∅, ∅⟩ r).nodes,
        g.links ∪ (analyzeStep ⟨∅, ∅⟩ r).links⟩ := by
  unfold analyzeStep
  by_cases h1 : r.as_path = []
  · refine Graph.ext2 ?_ ?_ <;> simp [h1]
  · by_cases h2 : (cleanedPath r.as_path).length < 2
    · refine Graph.ext2 ?_ ?_ <;> simp [h1, h2]
    · rw [if_neg h1, if_neg h2, if_neg h1, if_neg h2]
      exact addPath_union _ g

/-- Processing two records commutes, because set union does. -/
theorem analyzeStep_comm (g : Graph) (r s : RouteRecord) :
    analyzeStep (analyzeStep g r) s = analyzeStep (analyzeStep g s) r := by
  rw [analyzeStep_union (analyzeStep g r) s, analyzeStep_union g r,
      analyzeStep_union (analyzeStep g s) r, analyzeStep_union g s]
  exact Graph.ext2 (Finset.union_right_comm _ _ _) (Finset.union_right_comm _ _ _)

/-- The accumulated node/link sets are invariant under permutation of
the record list. -/
theorem analyzeSets_perm {l₁ l₂ : List RouteRecord} (h : l₁.Perm l₂) :
    analyzeSets l₁ = analyzeSets l₂ := by
  unfold analyzeSets
  suffices hs : ∀ g : Graph, l₁.foldl analyzeStep g = l₂.foldl analyzeStep g from
    hs ⟨∅, ∅⟩
  induction h with
  | nil => intro g; rfl
  | cons x _ ih => intro g; simp only [List.foldl_cons]; exact ih _
  | swap x y l => intro g; simp only [List.foldl_cons]; rw [analyzeStep_comm]
  | trans _ _ ih1 ih2 => intro g; rw [ih1 g, ih2 g]

/-- C6: permuting the input record sequence never changes the resulting
node or link sets — the graph depends only on the multiset of input
records, not on their order. -/
theorem build_order_independent (l₁ l₂ : List RouteRecord) (h : l₁.Perm l₂) :
    analyze_routes_to_graph l₁ = analyze_routes_to_graph l₂ := by
  unfold analyze_routes_to_graph
  by_cases h1 : l₁ = []
  · subst h1
    rw [List.Perm.eq_nil h.symm]
  · have h2 : l₂ ≠ [] := fun he => h1 (List.Perm.eq_nil (he ▸ h))
    rw [if_neg h1, if_neg h2, analyzeSets_perm h]

theorem build_order_independent_witness :
    ([⟨[Token.str ['1'], Token.str ['2']]⟩, ⟨[Token.str ['3'], Token.str ['4']]⟩] :
        List RouteRecord).Perm
      [⟨[Token.str ['3'], Token.str ['4']]⟩, ⟨[Token.str ['1'], Token.str ['2']]⟩] ∧
    analyze_routes_to_graph
        [⟨[Token.str ['1'], Token.str ['2']]⟩, ⟨[Token.str ['3'], Token.str ['4']]⟩] =
      analyze_routes_to_graph
        [⟨[Token.str ['3'], Token.str ['4']]⟩, ⟨[Token.str ['1'], Token.str ['2']]⟩] :=
  ⟨List.Perm.swap _ _ _, build_order_independent _ _ (List.Perm.swap _ _ _)⟩

/-! ### Link-shape lemmas (C7, C8, C10) -/

/-- The two-element sort keeps the pair's components. -/
theorem sortPair_or (a b : PyStr) :
    sortPair a b = (a, b) ∨ sortPair a b = (b, a) := by
  unfold sortPair
  by_cases hlt : strLt b a
  · rw [if_pos hlt]; right; rfl
  · rw [if_neg hlt]; left; rfl

/-- Sorting a pair of distinct strings yields distinct components. -/
theorem sortPair_ne {a b : PyStr} (h : a ≠ b) :
    (sortPair a b).1 ≠ (sortPair a b).2 := by
  unfold sortPair
  by_cases hlt : strLt b a
  · rw [if_pos hlt]; exact fun he => h he.symm
  · rw [if_neg hlt]; exact h

/-- Edge extraction over a path with no adjacent duplicates never adds
a link whose two endpoints coincide. -/
theorem addPath_no_self_link :
    ∀ (c : List PyStr) (g : Graph), List.Chain' (fun x y => x ≠ y) c →
      (∀ p ∈ g.links, p.1 ≠ p.2) →
      ∀ p ∈ (addPath c g).links, p.1 ≠ p.2 := by
  intro c
  induction c with
  | nil => intro g _ hg; exact hg
  | cons a tail ih =>
    intro g hc hg
    cases tail with
    | nil => exact hg
    | cons b rest =>
      refine ih ⟨insert b (insert a g.nodes), insert (sortPair a b) g.links⟩
        (List.Chain'.tail hc) ?_
      intro p hp
      rcases Finset.mem_insert.mp hp with h1 | h2
      · rw [h1]
        exact sortPair_ne (List.chain'_cons.mp hc).1
      · exact hg p h2

/-- Record processing preserves the absence of self-loop links. -/
theorem analyzeStep_no_self_link (g : Graph) (r : RouteRecord)
    (hg : ∀ p ∈ g.links, p.1 ≠ p.2) :
    ∀ p ∈ (analyzeStep g r).links, p.1 ≠ p.2 := by
  unfold analyzeStep
  by_cases h1 : r.as_path = []
  · rw [if_pos h1]; exact hg
  · rw [if_neg h1]
    by_cases h2 : (cleanedPath r.as_path).length < 2
    · rw [if_pos h2]; exact hg
    · rw [if_neg h2]
      exact addPath_no_self_link _ g (cleanLoop_chain' r.as_path none) hg

/-- The accumulated link set contains no self-loop. -/
theorem analyzeSets_no_self_link (records : List RouteRecord) :
    ∀ p ∈ (analyzeSets records).links, p.1 ≠ p.2 := by
  unfold analyzeSets
  suffices hs : ∀ g : Graph, (∀ p ∈ g.links, p.1 ≠ p.2) →
      ∀ p ∈ (records.foldl analyzeStep g).links, p.1 ≠ p.2 from
    hs ⟨∅, ∅⟩ (by simp)
  induction records with
  | nil => intro g hg; exact hg
  | cons r rest ih =>
    intro g hg
    simp only [List.foldl_cons]
    exact ih _ (analyzeStep_no_self_link g r hg)

/-- C7: for every input record sequence, no link of the resulting graph
has `source == target`: adjacent duplicates are collapsed by the
normalization loop before edges are extracted. -/
theorem build_no_self_loops (records : List RouteRecord) (g : Graph)
    (hg : analyze_routes_to_graph records = some g) :
    ∀ p ∈ g.links, p.1 ≠ p.2 := by
  unfold analyze_routes_to_graph at hg
  by_cases h1 : records = []
  · rw [if_pos h1] at hg; cases hg
  · rw [if_neg h1] at hg
    injection hg with h
    subst h
    exact analyzeSets_no_self_link records

theorem build_no_self_loops_witness :
    analyze_routes_to_graph [⟨[Token.str ['1'], Token.str ['2']]⟩] =
        some ⟨{['1'], ['2']}, {(['1'], ['2'])}⟩ ∧
      ∀ p ∈ (Graph.mk {['1'], ['2']} {(['1'], ['2'])}).links, p.1 ≠ p.2 :=
  ⟨congrArg some (by decide :
      analyzeSets [⟨[Token.str ['1'], Token.str ['2']]⟩] =
        ⟨{['1'], ['2']}, {(['1'], ['2'])}⟩),
    build_no_self_loops [⟨[Token.str ['1'], Token.str ['2']]⟩]
      ⟨{['1'], ['2']}, {(['1'], ['2'])}⟩ (congrArg some (by decide :
      analyzeSets [⟨[Token.str ['1'], Token.str ['2']]⟩] =
        ⟨{['1'], ['2']}, {(['1'], ['2'])}⟩))⟩

/-- The edge loop adds at most one link per adjacent pair. -/
theorem addPath_links_card :
    ∀ (c : List PyStr) (g : Graph),
      (addPath c g).links.card ≤ g.links.card + (c.length - 1) := by
  intro c
  induction c with
  | nil => intro g; simp [addPath]
  | cons a tail ih =>
    intro g
    cases tail with
    | nil => simp [addPath]
    | cons b rest =>
      calc (addPath (a :: b :: rest) g).links.card
          = (addPath (b :: rest)
              ⟨insert b (insert a g.nodes),
                insert (sortPair a b) g.links⟩).links.card := rfl
        _ ≤ (insert (sortPair a b) g.links).card + ((b :: rest).length - 1) := ih _
        _ ≤ (g.links.card + 1) + ((b :: rest).length - 1) :=
              Nat.add_le_add_right (Finset.card_insert_le _ _) _
        _ ≤ g.links.card + ((a :: b :: rest).length - 1) := by
              simp only [List.length_cons]; omega

/-- Every node the edge loop adds is an element of the path. -/
theorem addPath_nodes_subset :
    ∀ (c : List PyStr) (g : Graph),
      (addPath c g).nodes ⊆ g.nodes ∪ c.toFinset := by
  intro c
  induction c with
  | nil => intro g; simp [addPath]
  | cons a tail ih =>
    intro g
    cases tail with
    | nil => intro x hx; simp [addPath] at hx ⊢; tauto
    | cons b rest =>
      intro x hx
      have hx2 := ih ⟨insert b (insert a g.nodes), insert (sortPair a b) g.links⟩ hx
      simp at hx2 ⊢
      tauto

/-- C8: the graph built from a single record has at most
`len(cleaned) - 1` links (natural subtraction, so `max(0, len-1)`) and
at most `len(cleaned)` nodes; a cleaned path of length 0 or 1
contributes no nodes and no links at all. -/
theorem single_record_size_bounds (r : RouteRecord) :
    (analyzeSets [r]).links.card ≤ (cleanedPath r.as_path).length - 1 ∧
      (analyzeSets [r]).nodes.card ≤ (cleanedPath r.as_path).length ∧
      ((cleanedPath r.as_path).length < 2 → analyzeSets [r] = ⟨∅, ∅⟩) := by
  have hstep : analyzeSets [r] = analyzeStep ⟨∅, ∅⟩ r := rfl
  rw [hstep]
  unfold analyzeStep
  by_cases h1 : r.as_path = []
  · rw [if_pos h1]
    exact ⟨by simp, by simp, fun _ => rfl⟩
  · rw [if_neg h1]
    by_cases h2 : (cleanedPath r.as_path).length < 2
    · rw [if_pos h2]
      exact ⟨by simp, by simp, fun _ => rfl⟩
    · rw [if_neg h2]
      refine ⟨?_, ?_, fun hlt => absurd hlt h2⟩
      · have hb := addPath_links_card (cleanedPath r.as_path) ⟨∅, ∅⟩
        simpa using hb
      · have hsub := addPath_nodes_subset (cleanedPath r.as_path) ⟨∅, ∅⟩
        have hcard := Finset.card_le_card hsub
        calc (addPath (cleanedPath r.as_path) ⟨∅, ∅⟩).nodes.card
            ≤ ((⟨∅, ∅⟩ : Graph).nodes ∪ (cleanedPath r.as_path).toFinset).card :=
              hcard
          _ ≤ (cleanedPath r.as_path).length := by
              simpa using (cleanedPath r.as_path).toFinset_card_le

theorem single_record_size_bounds_witness :
    ((analyzeSets [⟨[Token.str ['7']]⟩]).links.card ≤
        (cleanedPath [Token.str ['7']]).length - 1 ∧
      (analyzeSets [⟨[Token.str ['7']]⟩]).nodes.card ≤
        (cleanedPath [Token.str ['7']]).length) ∧
      analyzeSets [⟨[Token.str ['7']]⟩] = ⟨∅, ∅⟩ :=
  ⟨⟨(single_record_size_bounds ⟨[Token.str ['7']]⟩).1,
      (single_record_size_bounds ⟨[Token.str ['7']]⟩).2.1⟩,
    (single_record_size_bounds ⟨[Token.str ['7']]⟩).2.2 (by decide)⟩

/-- Edge extraction keeps every node attached to some link: endpoints
are inserted into `nodes` in the same step that inserts their link. -/
theorem addPath_no_isolated :
    ∀ (c : List PyStr) (g : Graph),
      (∀ n ∈ g.nodes, ∃ p ∈ g.links, n = p.1 ∨ n = p.2) →
      ∀ n ∈ (addPath c g).nodes, ∃ p ∈ (addPath c g).links, n = p.1 ∨ n = p.2 := by
  intro c
  induction c with
  | nil => intro g hg; exact hg
  | cons a tail ih =>
    intro g hg
    cases tail with
    | nil => exact hg
    | cons b rest =>
      refine ih ⟨insert b (insert a g.nodes), insert (sortPair a b) g.links⟩ ?_
      intro n hn
      rcases Finset.mem_insert.mp hn with h1 | hn2
      · refine ⟨sortPair a b, Finset.mem_insert_self _ _, ?_⟩
        rcases sortPair_or a b with hs | hs <;> rw [h1, hs] <;> simp
      · rcases Finset.mem_insert.mp hn2 with h2 | hn3
        · refine ⟨sortPair a b, Finset.mem_insert_self _ _, ?_⟩
          rcases sortPair_or a b with hs | hs <;> rw [h2, hs] <;> simp
        · obtain ⟨p, hp, hcomp⟩ := hg n hn3
          exact ⟨p, Finset.mem_insert_of_mem hp, hcomp⟩

/-- Record processing preserves the no-isolated-node property. -/
theorem analyzeStep_no_isolated (g : Graph) (r : RouteRecord)
    (hg : ∀ n ∈ g.nodes, ∃ p ∈ g.links, n = p.1 ∨ n = p.2) :
    ∀ n ∈ (analyzeStep g r).nodes,
      ∃ p ∈ (analyzeStep g r).links, n = p.1 ∨ n = p.2 := by
  unfold analyzeStep
  by_cases h1 : r.as_path = []
  · rw [if_pos h1]; exact hg
  · rw [if_neg h1]
    by_cases h2 : (cleanedPath r.as_path).length < 2
    · rw [if_pos h2]; exact hg
    · rw [if_neg h2]
      exact addPath_no_isolated _ g hg

/-- The accumulated graph has no isolated node. -/
theorem analyzeSets_no_isolated (records : List RouteRecord) :
    ∀ n ∈ (analyzeSets records).nodes,
      ∃ p ∈ (analyzeSets records).links, n = p.1 ∨ n = p.2 := by
  unfold analyzeSets
  suffices hs : ∀ g : Graph, (∀ n ∈ g.nodes, ∃ p ∈ g.links, n = p.1 ∨ n = p.2) →
      ∀ n ∈ (records.foldl analyzeStep g).nodes,
        ∃ p ∈ (records.foldl analyzeStep g).links, n = p.1 ∨ n = p.2 from
    hs ⟨∅, ∅⟩ (by simp)
  induction records with
  | nil => intro g hg; exact hg
  | cons r rest ih =>
    intro g hg
    simp only [List.foldl_cons]
    exact ih _ (analyzeStep_no_isolated g r hg)

/-- C10: every node identifier in the built graph is the source or
target of at least one link, because identifiers enter the node set only
in the loop iteration that also inserts their adjacent pair's link. -/
theorem build_no_isolated_nodes (records : List RouteRecord) (n : PyStr)
    (hn : n ∈ (analyzeSets records).nodes) :
    ∃ p ∈ (analyzeSets records).links, n = p.1 ∨ n = p.2 :=
  analyzeSets_no_isolated records n hn

theorem build_no_isolated_nodes_witness :
    ['1'] ∈ (analyzeSets [⟨[Token.str ['1'], Token.str ['2']]⟩]).nodes ∧
      ∃ p ∈ (analyzeSets [⟨[Token.str ['1'], Token.str ['2']]⟩]).links,
        ['1'] = p.1 ∨ ['1'] = p.2 :=
  ⟨by decide, build_no_isolated_nodes _ _ (by decide)⟩

/-! ### C9: the size-limit step -/

/-- C9: when the node count or link count exceeds its configured soft
ceiling, the graph data is passed through unchanged — the warning branch
at lines 219-223 only prints and does not truncate, filter, or error. -/
theorem size_limit_passes_data_through (g : Graph)
    (h : g.nodes.card > MAX_NODES ∨ g.links.card > MAX_LINKS) :
    sizeLimitCheck g = (g, true) := by
  unfold sizeLimitCheck
  rw [if_pos h]

/-- A concrete graph exceeding the node ceiling: `MAX_NODES + 1`
distinct identifiers. -/
def oversizedNodes : Finset PyStr :=
  (Finset.range (MAX_NODES + 1)).image (fun n => List.replicate n 'a')

theorem oversizedNodes_card : oversizedNodes.card = MAX_NODES + 1 := by
  have hinj : Function.Injective (fun n : Nat => List.replicate n 'a') := by
    intro n m hnm
    simpa using congrArg List.length hnm
  unfold oversizedNodes
  rw [Finset.card_image_of_injective _ hinj, Finset.card_range]

theorem size_limit_passes_data_through_witness :
    sizeLimitCheck ⟨oversizedNodes, ∅⟩ = (⟨oversizedNodes, ∅⟩, true) :=
  size_limit_passes_data_through ⟨oversizedNodes, ∅⟩
    (Or.inl (by show MAX_NODES < oversizedNodes.card
                rw [oversizedNodes_card]
                exact Nat.lt_succ_self _))
